import Mathlib

/-!
Verification of the buncargo config loader (`src/loader.ts`).

The module is embedded shallowly:

* A filesystem path is a list of components (`Path`); the parent operation
  `dirname` drops the last component and the filesystem root is `[]`, the
  unique fixed point of `dirname` (matching `node:path`'s `dirname`, whose
  fixed points are the roots).
* The filesystem is a set of existing paths, queried by `existsSync`.
* JavaScript values reachable from a loaded config module are modelled by
  `JSValue` together with JS truthiness (`truthy`), property access
  (`getProp`) and optional chaining (`optChain`).
* The process-wide mutable cache slot `cachedEnv` becomes an explicit
  `LoaderState` threaded through the operations; ambient effects
  (`process.cwd()`, dynamic `import`, the external `createDevEnvironment`
  factory) are collected in a `World` record.  Thrown errors become
  `Except.error` values carrying a `LoadError`, whose rendered message text
  is `errorMessage`.
-/

set_option autoImplicit false

namespace Buncargo

/-- A filesystem path, as its list of components; `[]` is the root. -/
abbrev Path := List String

/-- The recognized config filenames, in priority order (`CONFIG_FILES`). -/
def CONFIG_FILES : List String :=
  ["dev.config.ts", "dev.config.js", "dev-tools.config.ts", "dev-tools.config.js"]

/-- Parent directory: drop the last path component (`node:path` `dirname`).
The root `[]` is its unique fixed point. -/
def dirname (p : Path) : Path := p.dropLast

/-- Join a directory path and a filename (`node:path` `join`). -/
def joinPath (dir : Path) (file : String) : Path := dir ++ [file]

/-- The filesystem state: the set of paths that exist, as a list. -/
structure FileSystem where
  files : List Path
deriving DecidableEq

/-- Existence check (`node:fs` `existsSync`). -/
def existsSync (fs : FileSystem) (p : Path) : Bool := fs.files.contains p

theorem dirname_eq_self_iff (p : Path) : dirname p = p ↔ p = [] := by
  unfold dirname
  constructor
  · intro h
    by_contra hne
    have := List.length_dropLast p
    rw [h] at this
    cases p with
    | nil => exact hne rfl
    | cons a l => simp at this
  · intro h; subst h; rfl

theorem dirname_length_lt {p : Path} (h : dirname p ≠ p) :
    (dirname p).length < p.length := by
  cases p with
  | nil => exact absurd rfl h
  | cons a l =>
    unfold dirname
    rw [List.length_dropLast]
    simp

/--
`findConfigFile` from `src/loader.ts`: starting at `startDir`, test each
candidate of `CONFIG_FILES` in order in the current directory, returning the
joined path of the first that exists; otherwise move to the parent, stopping
with `none` when the parent equals the current directory.
-/
def findConfigFile (fs : FileSystem) (startDir : Path) : Option Path :=
  match CONFIG_FILES.find? (fun file => existsSync fs (joinPath startDir file)) with
  | some file => some (joinPath startDir file)
  | none =>
    let parentDir := dirname startDir
    if h : parentDir = startDir then none
    else findConfigFile fs parentDir
termination_by startDir.length
decreasing_by exact dirname_length_lt h

/-- The chain of directories the walk visits: `d`, its parent, …, up to the
fixed point of `dirname` (the root). -/
def ancestors (d : Path) : List Path :=
  if h : dirname d = d then [d]
  else d :: ancestors (dirname d)
termination_by d.length
decreasing_by exact dirname_length_lt h

/-- The first recognized candidate of a single directory, in list order. -/
def findFirstCandidate (fs : FileSystem) (dir : Path) : Option Path :=
  (CONFIG_FILES.find? (fun file => existsSync fs (joinPath dir file))).map (joinPath dir)

/-- Modelled from the spec wording of the locator contract, for comparison
with `findConfigFile`: the first candidate (in priority order) of the nearest
ancestor directory (the start included) that contains one. -/
def findConfigFileSpec (fs : FileSystem) (d : Path) : Option Path :=
  (ancestors d).findSome? (findFirstCandidate fs)

theorem findConfigFile_eq_spec_aux (fs : FileSystem) (d : Path) :
    findConfigFile fs d = findConfigFileSpec fs d := by
  rw [findConfigFile, findConfigFileSpec, ancestors]
  cases hf : CONFIG_FILES.find? (fun file => existsSync fs (joinPath d file)) with
  | some file =>
    by_cases hroot : dirname d = d <;>
      simp [hf, hroot, List.findSome?, findFirstCandidate]
  | none =>
    by_cases hroot : dirname d = d
    · simp [hf, hroot, List.findSome?, findFirstCandidate]
    · simp only [hf, hroot, dite_false]
      have hrec : findConfigFile fs (dirname d) = findConfigFileSpec fs (dirname d) :=
        findConfigFile_eq_spec_aux fs (dirname d)
      simp [List.findSome?, findFirstCandidate, hf, hroot]
      exact hrec
termination_by d.length
decreasing_by exact dirname_length_lt hroot

/-!
JavaScript values and truthiness, as needed by the validation check
`!config?.projectPrefix || !config?.services` and by `mod.default`.
-/

/-- A JavaScript value reachable from a loaded config module. -/
inductive JSValue where
  | undefined : JSValue
  | jsNull : JSValue
  | bool : Bool → JSValue
  | num : Int → JSValue
  | str : String → JSValue
  | obj : List (String × JSValue) → JSValue

/-- JS truthiness: `undefined`, `null`, `false`, `0` and `""` are falsy;
every object (the empty object included) is truthy. -/
def truthy : JSValue → Bool
  | .undefined => false
  | .jsNull => false
  | .bool b => b
  | .num n => n != 0
  | .str s => s != ""
  | .obj _ => true

/-- Property access `v.key`: field lookup on objects, `undefined` otherwise. -/
def getProp (v : JSValue) (key : String) : JSValue :=
  match v with
  | .obj fields =>
    match fields.find? (fun kv => kv.1 == key) with
    | some kv => kv.2
    | none => .undefined
  | _ => .undefined

/-- Optional chaining `v?.key`: `undefined` when `v` is nullish, plain
property access otherwise. -/
def optChain (v : JSValue) (key : String) : JSValue :=
  match v with
  | .undefined => .undefined
  | .jsNull => .undefined
  | _ => getProp v key

/-!
The loader, its cache slot and its ambient world.
-/

/-- The process-wide cache slot `cachedEnv`: `none` or one environment. -/
structure LoaderState (E : Type) where
  cachedEnv : Option E
deriving DecidableEq

/-- The options argument of `loadDevEnv`; both fields and the whole record
are optional in the source, hence the `Option`s. -/
structure LoadOptions where
  cwd : Option Path
  reload : Option Bool
deriving DecidableEq

/-- The ambient effects `loadDevEnv` uses: the filesystem, `process.cwd()`,
dynamic `import` of a module path, and the external `createDevEnvironment`
factory producing an opaque environment of type `E`. -/
structure World (E : Type) where
  fs : FileSystem
  processCwd : Path
  importMod : Path → JSValue
  createDevEnvironment : JSValue → E

/-- The three error kinds the module throws. -/
inductive LoadError where
  | configNotFound : LoadError
  | invalidConfig : Path → LoadError
  | notLoaded : LoadError
deriving DecidableEq

/-- Render a path the way it appears inside an error message. -/
def renderPath (p : Path) : String := String.intercalate "/" p

/-- The message text of each thrown `Error`, from `src/loader.ts`. -/
def errorMessage : LoadError → String
  | .configNotFound =>
    "No config file found. Create dev.config.ts with: export default defineDevConfig(\x7b ... \x7d)"
  | .invalidConfig p =>
    "Invalid config in \"" ++ renderPath p ++ "\". Use defineDevConfig() and export as default."
  | .notLoaded => "Dev environment not loaded. Call loadDevEnv() first."

/-- Truthiness of `options?.reload`. -/
def reloadRequested (options : Option LoadOptions) : Bool :=
  match options with
  | none => false
  | some o =>
    match o.reload with
    | none => false
    | some b => b

/-- The starting directory `options?.cwd ?? process.cwd()`. -/
def resolveCwd {E : Type} (w : World E) (options : Option LoadOptions) : Path :=
  match options with
  | none => w.processCwd
  | some o =>
    match o.cwd with
    | none => w.processCwd
    | some d => d

/-- The body of `loadDevEnv` past the cache check: locate the config file
from `cwd`, import it, read `mod.default`, validate, build and cache the
environment; errors leave the state untouched. -/
def performLoad {E : Type} (w : World E) (st : LoaderState E) (cwd : Path) :
    Except LoadError E × LoaderState E :=
  match findConfigFile w.fs cwd with
  | some configPath =>
    let mod := w.importMod configPath
    let config := getProp mod "default"
    if !truthy (optChain config "projectPrefix") || !truthy (optChain config "services") then
      (Except.error (LoadError.invalidConfig configPath), st)
    else
      let env := w.createDevEnvironment config
      (Except.ok env, LoaderState.mk (some env))
  | none => (Except.error LoadError.configNotFound, st)

/-- `loadDevEnv` from `src/loader.ts`: return the cached environment when one
exists and no reload is requested, otherwise run the locate/import/validate
path from the resolved starting directory. -/
def loadDevEnv {E : Type} (w : World E) (st : LoaderState E)
    (options : Option LoadOptions) : Except LoadError E × LoaderState E :=
  match st.cachedEnv with
  | some env =>
    if !reloadRequested options then (Except.ok env, st)
    else performLoad w st (resolveCwd w options)
  | none => performLoad w st (resolveCwd w options)

/-- `getDevEnv` from `src/loader.ts`: a pure read of the cache slot — it
takes neither a `World` nor produces a new state, so it can touch neither the
filesystem nor the module loader nor the cache. -/
def getDevEnv {E : Type} (st : LoaderState E) : Except LoadError E :=
  match st.cachedEnv with
  | none => Except.error LoadError.notLoaded
  | some env => Except.ok env

/-- `clearDevEnvCache` from `src/loader.ts`: reset the slot to empty. -/
def clearDevEnvCache {E : Type} (_st : LoaderState E) : LoaderState E :=
  LoaderState.mk none

/-!
A fuel-indexed rendering of the `while (true)` loop of `findConfigFile`, used
to state that the loop exits after finitely many iterations, and a rendering
of the walk inside the exception monad, used to state that the locator has no
throw site.
-/

/-- The `findConfigFile` loop with an explicit iteration budget; the outer
`none` means the budget ran out before the loop exited. -/
def findConfigFileFuel (fs : FileSystem) : Nat → Path → Option (Option Path)
  | 0, _ => none
  | fuel + 1, d =>
    match CONFIG_FILES.find? (fun file => existsSync fs (joinPath d file)) with
    | some file => some (some (joinPath d file))
    | none =>
      if dirname d = d then some none
      else findConfigFileFuel fs fuel (dirname d)

/-- `existsSync` in the exception monad: per its `node:fs` contract it
reports failure by returning `false`, never by throwing. -/
def existsSyncE (fs : FileSystem) (p : Path) : Except String Bool :=
  Except.ok (existsSync fs p)

/-- The candidate loop of `findConfigFile` in the exception monad. -/
def findCandidateE (fs : FileSystem) (dir : Path) :
    List String → Except String (Option Path)
  | [] => Except.ok none
  | file :: rest =>
    match existsSyncE fs (joinPath dir file) with
    | Except.error e => Except.error e
    | Except.ok true => Except.ok (some (joinPath dir file))
    | Except.ok false => findCandidateE fs dir rest

/-- The whole locator walk in the exception monad. -/
def findConfigFileE (fs : FileSystem) (startDir : Path) :
    Except String (Option Path) :=
  match findCandidateE fs startDir CONFIG_FILES with
  | Except.error e => Except.error e
  | Except.ok (some p) => Except.ok (some p)
  | Except.ok none =>
    if h : dirname startDir = startDir then Except.ok none
    else findConfigFileE fs (dirname startDir)
termination_by startDir.length
decreasing_by exact dirname_length_lt h

theorem findCandidateE_eq (fs : FileSystem) (dir : Path) (l : List String) :
    findCandidateE fs dir l =
      Except.ok ((l.find? (fun file => existsSync fs (joinPath dir file))).map
        (joinPath dir)) := by
  induction l with
  | nil => rfl
  | cons file rest ih =>
    rw [findCandidateE, List.find?]
    cases hx : existsSync fs (joinPath dir file) with
    | true => simp [existsSyncE, hx]
    | false => simp [existsSyncE, hx, ih]

theorem findConfigFileFuel_eq (fs : FileSystem) :
    ∀ (fuel : Nat) (d : Path), d.length < fuel →
      findConfigFileFuel fs fuel d = some (findConfigFile fs d) := by
  intro fuel
  induction fuel with
  | zero => intro d hd; omega
  | succ n ih =>
    intro d hd
    rw [findConfigFileFuel, findConfigFile]
    cases hf : CONFIG_FILES.find? (fun file => existsSync fs (joinPath d file)) with
    | some file => rfl
    | none =>
      by_cases hroot : dirname d = d
      · simp [hroot]
      · have hlt : (dirname d).length < n := by
          have h1 := dirname_length_lt hroot
          omega
        simp [hroot, ih (dirname d) hlt]

theorem iterate_dirname_root : ∀ (n : Nat) (d : Path), d.length ≤ n →
    dirname^[n] d = [] := by
  intro n
  induction n with
  | zero =>
    intro d hd
    have : d = [] := List.length_eq_zero.mp (Nat.le_zero.mp hd)
    simp [this]
  | succ n ih =>
    intro d hd
    rw [Function.iterate_succ_apply]
    apply ih
    unfold dirname
    rw [List.length_dropLast]
    omega

theorem findSome?_eq_none_of_all_none {α β : Type} (f : α → Option β) :
    ∀ (l : List α), (∀ x ∈ l, f x = none) → l.findSome? f = none := by
  intro l hl
  induction l with
  | nil => rfl
  | cons a as ih =>
    rw [List.findSome?]
    rw [hl a (List.mem_cons_self a as)]
    exact ih (fun x hx => hl x (List.mem_cons_of_mem a hx))

/-!
Concrete worlds used by the witness and counterexample theorems.
-/

/-- A world with an empty filesystem, over `Nat` environments. -/
def emptyWorld : World Nat :=
  World.mk (FileSystem.mk []) ["x"] (fun _ => JSValue.undefined) (fun _ => 0)

/-- A valid raw config value: truthy `projectPrefix` and truthy `services`. -/
def okConfig : JSValue :=
  JSValue.obj [("projectPrefix", JSValue.str "app"),
    ("services", JSValue.obj [("db", JSValue.obj [])])]

/-- A world whose filesystem holds one config file under `home`, whose import
yields a module defaulting to `okConfig`, and whose factory returns `42`. -/
def okWorld : World Nat :=
  World.mk (FileSystem.mk [["home", "dev.config.ts"]]) ["home"]
    (fun _ => JSValue.obj [("default", okConfig)]) (fun _ => 42)

/-!
The claims.
-/

/-- C1: with a non-empty cache slot and no reload flag, `loadDevEnv` returns
the cached environment unchanged — for every world, so without consulting the
filesystem, the module loader or the validator; with the reload flag set it
runs the full locate/import/validate path even though a cache exists. -/
theorem loadDevEnv_cache_behavior {E : Type} (w : World E) (st : LoaderState E)
    (options : Option LoadOptions) (env : E) (hc : st.cachedEnv = some env) :
    (reloadRequested options = false →
      loadDevEnv w st options = (Except.ok env, st)) ∧
    (reloadRequested options = true →
      loadDevEnv w st options = performLoad w st (resolveCwd w options)) := by
  constructor <;> intro h <;> simp [loadDevEnv, hc, h]

/-- C1 witness: a concrete cached state, evaluated with and without reload. -/
theorem loadDevEnv_cache_behavior_witness :
    (LoaderState.mk (some 7) : LoaderState Nat).cachedEnv = some 7 ∧
    reloadRequested none = false ∧
    loadDevEnv emptyWorld (LoaderState.mk (some 7)) none =
      (Except.ok 7, LoaderState.mk (some 7)) ∧
    reloadRequested (some (LoadOptions.mk none (some true))) = true ∧
    loadDevEnv emptyWorld (LoaderState.mk (some 7)) (some (LoadOptions.mk none (some true))) =
      performLoad emptyWorld (LoaderState.mk (some 7))
        (resolveCwd emptyWorld (some (LoadOptions.mk none (some true)))) :=
  ⟨rfl, rfl,
    (loadDevEnv_cache_behavior emptyWorld (LoaderState.mk (some 7)) none 7 rfl).1 rfl,
    rfl,
    (loadDevEnv_cache_behavior emptyWorld (LoaderState.mk (some 7))
      (some (LoadOptions.mk none (some true))) 7 rfl).2 rfl⟩

/-- C2: the locator agrees with its specification — it returns the first
candidate, in `CONFIG_FILES` order, of the nearest directory along the
ancestor chain that contains one; all candidates of a directory are tried
before any candidate of its parent. -/
theorem findConfigFile_correct (fs : FileSystem) (d : Path) :
    findConfigFile fs d = findConfigFileSpec fs d :=
  findConfigFile_eq_spec_aux fs d

/-- C9: with a non-empty cache slot and no reload flag, the result of
`loadDevEnv` does not depend on the `cwd` option: it is the cached value for
every choice of starting directory. -/
theorem loadDevEnv_cached_ignores_cwd {E : Type} (w : World E)
    (st : LoaderState E) (env : E) (d d' : Path) (r : Option Bool)
    (hc : st.cachedEnv = some env)
    (hr : reloadRequested (some (LoadOptions.mk (some d) r)) = false) :
    loadDevEnv w st (some (LoadOptions.mk (some d) r)) = (Except.ok env, st) ∧
    loadDevEnv w st (some (LoadOptions.mk (some d) r)) =
      loadDevEnv w st (some (LoadOptions.mk (some d') r)) := by
  have hr' : reloadRequested (some (LoadOptions.mk (some d') r)) = false := hr
  constructor
  · simp [loadDevEnv, hc, hr]
  · simp [loadDevEnv, hc, hr, hr']

/-- C9 witness: two different starting directories, same cached result. -/
theorem loadDevEnv_cached_ignores_cwd_witness :
    (LoaderState.mk (some 9) : LoaderState Nat).cachedEnv = some 9 ∧
    reloadRequested (some (LoadOptions.mk (some ["a"]) none)) = false ∧
    loadDevEnv emptyWorld (LoaderState.mk (some 9))
        (some (LoadOptions.mk (some ["a"]) none)) =
      (Except.ok 9, LoaderState.mk (some 9)) ∧
    loadDevEnv emptyWorld (LoaderState.mk (some 9))
        (some (LoadOptions.mk (some ["a"]) none)) =
      loadDevEnv emptyWorld (LoaderState.mk (some 9))
        (some (LoadOptions.mk (some ["b", "c"]) none)) :=
  ⟨rfl, rfl,
    (loadDevEnv_cached_ignores_cwd emptyWorld (LoaderState.mk (some 9)) 9
      ["a"] ["b", "c"] none rfl rfl).1,
    (loadDevEnv_cached_ignores_cwd emptyWorld (LoaderState.mk (some 9)) 9
      ["a"] ["b", "c"] none rfl rfl).2⟩

/-- C10: `clearDevEnvCache` always empties the slot, never fails, and is
idempotent: clearing twice equals clearing once. -/
theorem clearDevEnvCache_idempotent {E : Type} (st : LoaderState E) :
    clearDevEnvCache (clearDevEnvCache st) = clearDevEnvCache st ∧
    (clearDevEnvCache st).cachedEnv = none := ⟨rfl, rfl⟩

/-- A raw config whose `services` field is the empty mapping. -/
def emptyServicesConfig : JSValue :=
  JSValue.obj [("projectPrefix", JSValue.str "app"), ("services", JSValue.obj [])]

/-- A world over `JSValue` environments whose config file loads to a module
defaulting to `emptyServicesConfig`; the factory is the identity. -/
def emptyServicesWorld : World JSValue :=
  World.mk (FileSystem.mk [["home", "dev.config.ts"]]) ["home"]
    (fun _ => JSValue.obj [("default", emptyServicesConfig)]) (fun c => c)

/-- C3 counterexample: the claim says an *empty* `services` mapping must be
rejected, but an empty JS object is truthy, so the code accepts it — here the
loaded config's `services` is the empty mapping, yet `loadDevEnv` succeeds. -/
theorem loadDevEnv_accepts_empty_services :
    optChain (getProp (emptyServicesWorld.importMod ["home", "dev.config.ts"])
        "default") "services" = JSValue.obj [] ∧
    loadDevEnv emptyServicesWorld (LoaderState.mk none) none =
      (Except.ok emptyServicesConfig, LoaderState.mk (some emptyServicesConfig)) := by
  constructor
  · rfl
  · simp [loadDevEnv, performLoad, resolveCwd, emptyServicesWorld, findConfigFile,
      CONFIG_FILES, existsSync, joinPath, List.find?, getProp, optChain, truthy,
      emptyServicesConfig]

/-- C3 (amended): when the cache does not short-circuit and a config file is
resolved, `loadDevEnv` accepts the loaded module's default export exactly
when both its `projectPrefix` and `services` fields are truthy (for strings,
truthy means non-empty; an empty `services` object is truthy and accepted);
otherwise it fails with an invalid-config error whose message contains the
offending file path. -/
theorem loadDevEnv_validation {E : Type} (w : World E) (st : LoaderState E)
    (options : Option LoadOptions) (configPath : Path)
    (hmiss : st.cachedEnv = none ∨ reloadRequested options = true)
    (hfound : findConfigFile w.fs (resolveCwd w options) = some configPath) :
    (truthy (optChain (getProp (w.importMod configPath) "default")
        "projectPrefix") = true →
      truthy (optChain (getProp (w.importMod configPath) "default")
        "services") = true →
      loadDevEnv w st options =
        (Except.ok (w.createDevEnvironment
            (getProp (w.importMod configPath) "default")),
          LoaderState.mk (some (w.createDevEnvironment
            (getProp (w.importMod configPath) "default"))))) ∧
    ((truthy (optChain (getProp (w.importMod configPath) "default")
        "projectPrefix") = false ∨
      truthy (optChain (getProp (w.importMod configPath) "default")
        "services") = false) →
      loadDevEnv w st options =
        (Except.error (LoadError.invalidConfig configPath), st) ∧
      ∃ a b, errorMessage (LoadError.invalidConfig configPath) =
        a ++ renderPath configPath ++ b) := by
  have hload : loadDevEnv w st options = performLoad w st (resolveCwd w options) := by
    rcases hmiss with hnone | hrel
    · simp [loadDevEnv, hnone]
    · cases hc : st.cachedEnv <;> simp [loadDevEnv, hc, hrel]
  constructor
  · intro hp hs
    rw [hload, performLoad, hfound]
    simp [hp, hs]
  · intro hbad
    refine ⟨?_, "Invalid config in \"",
      "\". Use defineDevConfig() and export as default.", rfl⟩
    rw [hload, performLoad, hfound]
    rcases hbad with hb | hb <;> simp [hb]

/-- C3 witness: a concrete valid config is accepted and cached. -/
theorem loadDevEnv_validation_witness :
    ((LoaderState.mk none : LoaderState Nat).cachedEnv = none ∨
      reloadRequested none = true) ∧
    findConfigFile okWorld.fs (resolveCwd okWorld none) =
      some ["home", "dev.config.ts"] ∧
    loadDevEnv okWorld (LoaderState.mk none) none =
      (Except.ok 42, LoaderState.mk (some 42)) := by
  have hfound : findConfigFile okWorld.fs (resolveCwd okWorld none) =
      some ["home", "dev.config.ts"] := by
    simp [okWorld, resolveCwd, findConfigFile, CONFIG_FILES, existsSync,
      joinPath, List.find?]
  refine ⟨Or.inl rfl, hfound, ?_⟩
  exact (loadDevEnv_validation okWorld (LoaderState.mk none) none
    ["home", "dev.config.ts"] (Or.inl rfl) hfound).1 rfl rfl

theorem performLoad_cases {E : Type} (w : World E) (st : LoaderState E)
    (cwd : Path) :
    (∃ env, performLoad w st cwd = (Except.ok env, LoaderState.mk (some env))) ∨
    (∃ e, performLoad w st cwd = (Except.error e, st)) := by
  rw [performLoad]
  cases findConfigFile w.fs cwd with
  | none => exact Or.inr ⟨LoadError.configNotFound, rfl⟩
  | some p =>
    by_cases hv : (!truthy (optChain (getProp (w.importMod p) "default")
        "projectPrefix") ||
        !truthy (optChain (getProp (w.importMod p) "default") "services")) = true
    · refine Or.inr ⟨LoadError.invalidConfig p, ?_⟩
      simp [hv]
    · refine Or.inl ⟨w.createDevEnvironment (getProp (w.importMod p) "default"), ?_⟩
      simp [hv]

theorem loadDevEnv_run_cases {E : Type} (w : World E) (st : LoaderState E)
    (options : Option LoadOptions) :
    (∃ env, st.cachedEnv = some env ∧ reloadRequested options = false ∧
      loadDevEnv w st options = (Except.ok env, st)) ∨
    loadDevEnv w st options = performLoad w st (resolveCwd w options) := by
  cases hc : st.cachedEnv with
  | none =>
    right
    rw [loadDevEnv, hc]
  | some env =>
    cases hr : reloadRequested options with
    | false =>
      left
      refine ⟨env, rfl, rfl, ?_⟩
      rw [loadDevEnv, hc]
      simp [hr]
    | true =>
      right
      rw [loadDevEnv, hc]
      simp [hr]

theorem performLoad_failure_state {E : Type} (w : World E) (st : LoaderState E)
    (cwd : Path) (e : LoadError)
    (h : (performLoad w st cwd).1 = Except.error e) :
    (performLoad w st cwd).2 = st := by
  rcases performLoad_cases w st cwd with ⟨env, heq⟩ | ⟨e', heq⟩
  · rw [heq] at h
    simp at h
  · rw [heq]

/-- C4: a failing `loadDevEnv` call — whatever the error and whether or not a
reload was requested — leaves the cache slot exactly as it was; only a
successful load mutates it. -/
theorem loadDevEnv_failure_preserves_cache {E : Type} (w : World E)
    (st : LoaderState E) (options : Option LoadOptions) (e : LoadError)
    (h : (loadDevEnv w st options).1 = Except.error e) :
    (loadDevEnv w st options).2 = st := by
  rcases loadDevEnv_run_cases w st options with ⟨env, hc, hr, heq⟩ | heq
  · rw [heq] at h
    simp at h
  · rw [heq] at h ⊢
    exact performLoad_failure_state w st (resolveCwd w options) e h

/-- C4 witness: a reload over an empty filesystem fails with ConfigNotFound
and the previously cached value survives. -/
theorem loadDevEnv_failure_preserves_cache_witness :
    (loadDevEnv emptyWorld (LoaderState.mk (some 5))
        (some (LoadOptions.mk none (some true)))).1 =
      Except.error LoadError.configNotFound ∧
    (loadDevEnv emptyWorld (LoaderState.mk (some 5))
        (some (LoadOptions.mk none (some true)))).2 =
      LoaderState.mk (some 5) := by
  have h1 : (loadDevEnv emptyWorld (LoaderState.mk (some 5))
      (some (LoadOptions.mk none (some true)))).1 =
      Except.error LoadError.configNotFound := by
    simp [loadDevEnv, performLoad, reloadRequested, resolveCwd, emptyWorld,
      findConfigFile, CONFIG_FILES, existsSync, joinPath, List.find?, dirname]
  exact ⟨h1, loadDevEnv_failure_preserves_cache emptyWorld
    (LoaderState.mk (some 5)) (some (LoadOptions.mk none (some true)))
    LoadError.configNotFound h1⟩

theorem loadDevEnv_success_cache {E : Type} (w : World E) (st st' : LoaderState E)
    (options : Option LoadOptions) (env : E)
    (h : loadDevEnv w st options = (Except.ok env, st')) :
    st'.cachedEnv = some env := by
  rcases loadDevEnv_run_cases w st options with ⟨env0, hc, hr, heq⟩ | heq
  · rw [heq] at h
    simp only [Prod.mk.injEq, Except.ok.injEq] at h
    rw [← h.2, hc, h.1]
  · rw [heq] at h
    rcases performLoad_cases w st (resolveCwd w options) with ⟨env1, hp⟩ | ⟨e, hp⟩
    · rw [hp] at h
      simp only [Prod.mk.injEq, Except.ok.injEq] at h
      rw [← h.2, h.1]
    · rw [hp] at h
      simp at h

/-- C5: `getDevEnv` fails with the not-loaded error exactly when the cache
slot is empty (in particular right after `clearDevEnvCache`); on a non-empty
slot it returns the cached value, which is the value the last successful
`loadDevEnv` returned.  It reads the slot only: it takes no world and
returns no new state. -/
theorem getDevEnv_spec {E : Type} (w : World E) (st st' : LoaderState E)
    (options : Option LoadOptions) (env : E)
    (hload : loadDevEnv w st options = (Except.ok env, st')) :
    (∀ s : LoaderState E,
      getDevEnv s = Except.error LoadError.notLoaded ↔ s.cachedEnv = none) ∧
    getDevEnv st' = Except.ok env ∧
    (∀ s : LoaderState E, ∀ e : E, s.cachedEnv = some e →
      getDevEnv s = Except.ok e) ∧
    (∀ s : LoaderState E,
      getDevEnv (clearDevEnvCache s) = Except.error LoadError.notLoaded) := by
  have hsome : ∀ (s : LoaderState E) (e : E), s.cachedEnv = some e →
      getDevEnv s = Except.ok e := by
    intro s e hse
    rw [getDevEnv, hse]
  have hiff : ∀ s : LoaderState E,
      getDevEnv s = Except.error LoadError.notLoaded ↔ s.cachedEnv = none := by
    intro s
    cases hcs : s.cachedEnv with
    | none => simp [getDevEnv, hcs]
    | some e => simp [getDevEnv, hcs]
  exact ⟨hiff, hsome st' env (loadDevEnv_success_cache w st st' options env hload),
    hsome, fun _ => rfl⟩

/-- C5 witness: a concrete successful load, read back through `getDevEnv`,
then cleared. -/
theorem getDevEnv_spec_witness :
    loadDevEnv okWorld (LoaderState.mk none) none =
      (Except.ok 42, LoaderState.mk (some 42)) ∧
    getDevEnv (LoaderState.mk (some (42 : Nat))) = Except.ok 42 ∧
    getDevEnv (clearDevEnvCache (LoaderState.mk (some (42 : Nat)))) =
      Except.error LoadError.notLoaded ∧
    getDevEnv (LoaderState.mk (none : Option Nat)) =
      Except.error LoadError.notLoaded := by
  have hload : loadDevEnv okWorld (LoaderState.mk none) none =
      (Except.ok 42, LoaderState.mk (some 42)) := by
    simp [loadDevEnv, performLoad, resolveCwd, okWorld, findConfigFile,
      CONFIG_FILES, existsSync, joinPath, List.find?, getProp, optChain,
      truthy, okConfig]
  have h := getDevEnv_spec okWorld (LoaderState.mk none)
    (LoaderState.mk (some 42)) none 42 hload
  exact ⟨hload, h.2.1, h.2.2.2 (LoaderState.mk (some 42)),
    (h.1 (LoaderState.mk none)).mpr rfl⟩

/-- C6: when no recognized filename exists anywhere along the ancestor chain
of the starting directory, the locator returns `none`, and `loadDevEnv`
(when the cache does not short-circuit) fails with the config-not-found
error, whose message tells the caller to create a config file. -/
theorem configNotFound_spec {E : Type} (w : World E) (st : LoaderState E)
    (options : Option LoadOptions) (d : Path)
    (hd : resolveCwd w options = d)
    (habsent : ∀ dir ∈ ancestors d, ∀ f ∈ CONFIG_FILES,
      existsSync w.fs (joinPath dir f) = false)
    (hnocache : st.cachedEnv = none ∨ reloadRequested options = true) :
    findConfigFile w.fs d = none ∧
    loadDevEnv w st options = (Except.error LoadError.configNotFound, st) ∧
    ∃ a b, errorMessage LoadError.configNotFound =
      a ++ "Create dev.config.ts" ++ b := by
  have hnone : findConfigFile w.fs d = none := by
    rw [findConfigFile_eq_spec_aux, findConfigFileSpec]
    apply findSome?_eq_none_of_all_none
    intro dir hdir
    rw [findFirstCandidate]
    have hfind : CONFIG_FILES.find?
        (fun file => existsSync w.fs (joinPath dir file)) = none := by
      rw [List.find?_eq_none]
      intro f hf
      simp [habsent dir hdir f hf]
    rw [hfind]
    rfl
  have hload : loadDevEnv w st options = performLoad w st (resolveCwd w options) := by
    rcases hnocache with hn | hrel
    · rw [loadDevEnv, hn]
    · cases hc : st.cachedEnv with
      | none => rw [loadDevEnv, hc]
      | some env =>
        rw [loadDevEnv, hc]
        simp [hrel]
  refine ⟨hnone, ?_, "No config file found. ",
    " with: export default defineDevConfig(\x7b ... \x7d)", rfl⟩
  rw [hload, performLoad, hd, hnone]

/-- C6 witness: an empty filesystem, starting at `x`. -/
theorem configNotFound_spec_witness :
    resolveCwd emptyWorld none = ["x"] ∧
    (∀ dir ∈ ancestors ["x"], ∀ f ∈ CONFIG_FILES,
      existsSync emptyWorld.fs (joinPath dir f) = false) ∧
    findConfigFile emptyWorld.fs ["x"] = none ∧
    loadDevEnv emptyWorld (LoaderState.mk (none : Option Nat)) none =
      (Except.error LoadError.configNotFound, LoaderState.mk none) := by
  have habsent : ∀ dir ∈ ancestors ["x"], ∀ f ∈ CONFIG_FILES,
      existsSync emptyWorld.fs (joinPath dir f) = false := fun _ _ _ _ => rfl
  have h := configNotFound_spec emptyWorld (LoaderState.mk none) none ["x"]
    rfl habsent (Or.inl rfl)
  exact ⟨rfl, habsent, h.1, h.2.1⟩

/-- C7: the parent chain from any starting directory reaches the fixed point
of `dirname` (the root `[]`) after `d.length` steps, and the locator loop
exits within `d.length + 1` iterations, computing `findConfigFile` — the
root comparison alone bounds the walk, with no depth guard needed. -/
theorem findConfigFile_walk_terminates (fs : FileSystem) (d : Path) :
    (dirname^[d.length] d = [] ∧ dirname ([] : Path) = []) ∧
    findConfigFileFuel fs (d.length + 1) d = some (findConfigFile fs d) :=
  ⟨⟨iterate_dirname_root d.length d (Nat.le_refl _), rfl⟩,
    findConfigFileFuel_eq fs (d.length + 1) d (Nat.lt_succ_self _)⟩

/-- C8: the locator run inside the exception monad never produces an error:
for every filesystem and start, it yields `ok` of the plain result, so
absence of a config file is the normal `none` value, never a thrown error
(the throw sites of the module live in `loadDevEnv` and `getDevEnv` only). -/
theorem findConfigFile_never_throws (fs : FileSystem) (d : Path) :
    findConfigFileE fs d = Except.ok (findConfigFile fs d) := by
  rw [findConfigFileE, findConfigFile, findCandidateE_eq]
  cases hf : CONFIG_FILES.find? (fun file => existsSync fs (joinPath d file)) with
  | some file => rfl
  | none =>
    by_cases hroot : dirname d = d
    · simp [hroot]
    · have hrec := findConfigFile_never_throws fs (dirname d)
      simp [hroot, hrec]
termination_by d.length
decreasing_by exact dirname_length_lt hroot

end Buncargo
